import Mathlib

/-!
Shallow embedding of the booking feasibility and extension-conflict engine
from `src/source/controllers/bookings.ts`.

Dates are modelled as day numbers. JavaScript numbers (used for
`numberOfNights` and `extraNights`) are modelled by `JSNum`: either `nan`
(the result of applying `Number` to non-numeric input) or a rational value
(every finite IEEE double is a rational; all date arithmetic in the source
is whole-day arithmetic through `Date.setDate`, which is exact addition for
the integer night counts the system works with). The persistence
collaborator (Prisma) is modelled as a list of booking rows: its `findMany`
queries become `List.filter`, `findUnique` becomes `List.find?`, creation
appends a record whose `id` the collaborator assigns (passed in as a
parameter), and `update` maps over the list keyed by `id`.
-/

namespace BookingCore

/-- A persisted booking row (the Prisma `booking` model in the source). -/
structure Booking where
  id : Nat
  guestName : String
  unitID : String
  checkInDate : ℚ
  numberOfNights : ℚ
deriving DecidableEq, Repr

/-- A new-booking request body (the `Booking` interface in the source has no `id`;
the id is assigned by the persistence collaborator at creation). -/
structure BookingRequest where
  guestName : String
  unitID : String
  checkInDate : ℚ
  numberOfNights : ℚ
deriving DecidableEq, Repr

/-- Checkout date of a booking: `checkInDate + numberOfNights` days
(the `addNights` helper of the source). -/
def checkOutDate (b : Booking) : ℚ := b.checkInDate + b.numberOfNights

/-- Half-open interval overlap test between two bookings, exactly the boolean
computed in check 4 of `isBookingPossible`:
`newCheckIn < bCheckOut && bCheckIn < newCheckOut`. -/
def overlaps (a b : Booking) : Bool :=
  decide (a.checkInDate < checkOutDate b) && decide (b.checkInDate < checkOutDate a)

/-- Rejection reason codes of the feasibility engine (the source returns the
corresponding strings, see `reasonMessage`). -/
inductive Reason where
  | GUEST_UNIT_DUPLICATE
  | GUEST_ALREADY_BOOKED
  | UNIT_OCCUPIED
  | OK
deriving DecidableEq, Repr

/-- The literal reason strings returned by the source. -/
def reasonMessage : Reason → String
  | .GUEST_UNIT_DUPLICATE => "The given guest name cannot book the same unit multiple times"
  | .GUEST_ALREADY_BOOKED => "The same guest cannot be in multiple units at the same time"
  | .UNIT_OCCUPIED => "For the given check-in date, the unit is already occupied"
  | .OK => "OK"

/-- The `BookingOutcome` record of the source. -/
structure BookingOutcome where
  result : Bool
  reason : Reason
deriving DecidableEq, Repr

/-- Check 1 query: bookings with the same guest name and the same unit. -/
def sameGuestSameUnit (booking : BookingRequest) (store : List Booking) : List Booking :=
  store.filter fun b => b.guestName == booking.guestName && b.unitID == booking.unitID

/-- Check 2 query: bookings with the same guest name (any unit). -/
def sameGuestAlreadyBooked (booking : BookingRequest) (store : List Booking) : List Booking :=
  store.filter fun b => b.guestName == booking.guestName

/-- Check 3 query: bookings on the same unit with exactly the same check-in date. -/
def sameUnitSameCheckIn (booking : BookingRequest) (store : List Booking) : List Booking :=
  store.filter fun b =>
    decide (b.checkInDate = booking.checkInDate) && b.unitID == booking.unitID

/-- Check 4 query: bookings on the same unit whose check-in is strictly before
the candidate checkout. -/
def unitCandidates (booking : BookingRequest) (store : List Booking) : List Booking :=
  store.filter fun b =>
    b.unitID == booking.unitID &&
      decide (b.checkInDate < booking.checkInDate + booking.numberOfNights)

/-- The `isBookingPossible` function of the source: the four checks in order,
the first failing one fixing the outcome. -/
def isBookingPossible (booking : BookingRequest) (store : List Booking) : BookingOutcome :=
  if (sameGuestSameUnit booking store).length > 0 then
    ⟨false, .GUEST_UNIT_DUPLICATE⟩
  else if (sameGuestAlreadyBooked booking store).length > 0 then
    ⟨false, .GUEST_ALREADY_BOOKED⟩
  else if (sameUnitSameCheckIn booking store).length > 0 then
    ⟨false, .UNIT_OCCUPIED⟩
  else if (unitCandidates booking store).any (fun b =>
      decide (booking.checkInDate < checkOutDate b) &&
        decide (b.checkInDate < booking.checkInDate + booking.numberOfNights)) then
    ⟨false, .UNIT_OCCUPIED⟩
  else
    ⟨true, .OK⟩

/-- Result of the create path (`createBooking` handler). -/
inductive CreateResult where
  | rejected (reason : Reason)
  | created (b : Booking)
deriving DecidableEq, Repr

/-- The `createBooking` handler: evaluate `isBookingPossible`; on rejection the
store is untouched, on acceptance a row with the collaborator-assigned `newId`
and the request fields is created. -/
def createBooking (newId : Nat) (booking : BookingRequest) (store : List Booking) :
    CreateResult × List Booking :=
  let outcome := isBookingPossible booking store
  if outcome.result then
    let b : Booking :=
      ⟨newId, booking.guestName, booking.unitID, booking.checkInDate, booking.numberOfNights⟩
    (.created b, store ++ [b])
  else
    (.rejected outcome.reason, store)

/-- A JavaScript number as produced by `Number(req.body.extraNights)`:
either `NaN` (non-numeric input) or a finite value, which is a rational. -/
inductive JSNum where
  | nan
  | num (q : ℚ)
deriving DecidableEq, Repr

/-- Result of the extend path (`extendBooking` handler). -/
inductive ExtendResult where
  | invalidExtraNights
  | bookingNotFound
  | extensionConflict
  | updated (b : Booking)
deriving DecidableEq, Repr

/-- The `extendBooking` handler. Validation mirrors
`!extraNights || extraNights <= 0`: `!NaN` and `!0` are truthy, so `NaN`,
zero and negatives are invalid. The conflict scan fetches rows on the same
unit, with a different id, whose check-in is before the proposed checkout,
and rejects when `currentCheckout < otherCheckOut && otherCheckIn <
proposedCheckout`; otherwise the row is updated to
`booking.numberOfNights + extraNights`. -/
def extendBooking (bookingId : Nat) (extraNights : JSNum) (store : List Booking) :
    ExtendResult × List Booking :=
  match extraNights with
  | .nan => (.invalidExtraNights, store)
  | .num extra =>
    if extra = 0 ∨ extra ≤ 0 then
      (.invalidExtraNights, store)
    else
      match store.find? (fun b => b.id == bookingId) with
      | none => (.bookingNotFound, store)
      | some booking =>
        let currentCheckout := booking.checkInDate + booking.numberOfNights
        let proposedCheckout := currentCheckout + extra
        let conflictingBookings := store.filter fun b =>
          b.unitID == booking.unitID && b.id != booking.id &&
            decide (b.checkInDate < proposedCheckout)
        if conflictingBookings.any (fun other =>
            decide (currentCheckout < checkOutDate other) &&
              decide (other.checkInDate < proposedCheckout)) then
          (.extensionConflict, store)
        else
          (.updated { booking with numberOfNights := booking.numberOfNights + extra },
           store.map fun x =>
             if x.id == booking.id then
               { x with numberOfNights := booking.numberOfNights + extra }
             else x)

/-- Variant of `isBookingPossible` with check 3 (exact check-in collision)
removed, for the redundancy claim: checks 1, 2 and 4 only, in the same order
and with the same reasons. -/
def isBookingPossibleNoCheck3 (booking : BookingRequest) (store : List Booking) :
    BookingOutcome :=
  if (sameGuestSameUnit booking store).length > 0 then
    ⟨false, .GUEST_UNIT_DUPLICATE⟩
  else if (sameGuestAlreadyBooked booking store).length > 0 then
    ⟨false, .GUEST_ALREADY_BOOKED⟩
  else if (unitCandidates booking store).any (fun b =>
      decide (booking.checkInDate < checkOutDate b) &&
        decide (b.checkInDate < booking.checkInDate + booking.numberOfNights)) then
    ⟨false, .UNIT_OCCUPIED⟩
  else
    ⟨true, .OK⟩

/-- The non-overlap store invariant: no two bookings on the same unit have
overlapping half-open intervals. -/
def noOverlaps (store : List Booking) : Prop :=
  store.Pairwise fun a b => a.unitID = b.unitID → overlaps a b = false

example :
    isBookingPossible ⟨"GuestA", "1", 0, 5⟩ [⟨1, "GuestA", "1", 0, 5⟩] =
      ⟨false, .GUEST_UNIT_DUPLICATE⟩ := by
  norm_num [isBookingPossible, sameGuestSameUnit, sameGuestAlreadyBooked, sameUnitSameCheckIn,
    unitCandidates, checkOutDate, extendBooking] <;> decide

example :
    isBookingPossible ⟨"GuestA", "2", 0, 5⟩ [⟨1, "GuestA", "1", 0, 5⟩] =
      ⟨false, .GUEST_ALREADY_BOOKED⟩ := by
  norm_num [isBookingPossible, sameGuestSameUnit, sameGuestAlreadyBooked, sameUnitSameCheckIn,
    unitCandidates, checkOutDate, extendBooking] <;> decide

example :
    isBookingPossible ⟨"GuestB", "1", 0, 5⟩ [⟨1, "GuestA", "1", 0, 5⟩] =
      ⟨false, .UNIT_OCCUPIED⟩ := by
  norm_num [isBookingPossible, sameGuestSameUnit, sameGuestAlreadyBooked, sameUnitSameCheckIn,
    unitCandidates, checkOutDate, extendBooking] <;> decide

example :
    isBookingPossible ⟨"GuestB", "1", 5, 2⟩ [⟨1, "GuestA", "1", 0, 5⟩] =
      ⟨true, .OK⟩ := by
  norm_num [isBookingPossible, sameGuestSameUnit, sameGuestAlreadyBooked, sameUnitSameCheckIn,
    unitCandidates, checkOutDate, extendBooking] <;> decide

example :
    (extendBooking 1 (.num 2) [⟨1, "GuestA", "1", 0, 5⟩]).fst =
      .updated ⟨1, "GuestA", "1", 0, 7⟩ := by
  norm_num [isBookingPossible, sameGuestSameUnit, sameGuestAlreadyBooked, sameUnitSameCheckIn,
    unitCandidates, checkOutDate, extendBooking] <;> decide

example :
    (extendBooking 1 (.num 1) [⟨1, "GuestA", "1", 0, 5⟩, ⟨2, "GuestC", "1", 5, 2⟩]).fst =
      .extensionConflict := by
  norm_num [isBookingPossible, sameGuestSameUnit, sameGuestAlreadyBooked, sameUnitSameCheckIn,
    unitCandidates, checkOutDate, extendBooking] <;> decide

example :
    (extendBooking 1 (.num 0) [⟨1, "GuestA", "1", 0, 5⟩]).fst =
      .invalidExtraNights := by
  norm_num [isBookingPossible, sameGuestSameUnit, sameGuestAlreadyBooked, sameUnitSameCheckIn,
    unitCandidates, checkOutDate, extendBooking] <;> decide

example :
    (extendBooking 9 (.num 2) [⟨1, "GuestA", "1", 0, 5⟩]).fst =
      .bookingNotFound := by
  norm_num [isBookingPossible, sameGuestSameUnit, sameGuestAlreadyBooked, sameUnitSameCheckIn,
    unitCandidates, checkOutDate, extendBooking] <;> decide

/-- A filtered Prisma query returns a nonempty row list exactly when some row
of the store satisfies the filter. -/
theorem filter_length_pos_iff {α : Type} {p : α → Bool} {l : List α} :
    (l.filter p).length > 0 ↔ ∃ b ∈ l, p b = true := by
  simp [gt_iff_lt, List.length_pos_iff_exists_mem, List.mem_filter]

/-- C2. Check ordering fixes the rejection reason: whenever check 1 (same guest,
same unit) and check 2 (guest already holds a booking) would both fire,
`createBooking` rejects with `GUEST_UNIT_DUPLICATE` — check 1 is evaluated
first and wins — and the store is left unchanged. -/
theorem createBooking_guestUnitDuplicate_first (newId : Nat) (c : BookingRequest)
    (store : List Booking)
    (h1 : ∃ b ∈ store, b.guestName = c.guestName ∧ b.unitID = c.unitID)
    (h2 : ∃ b ∈ store, b.guestName = c.guestName) :
    createBooking newId c store = (.rejected .GUEST_UNIT_DUPLICATE, store) := by
  obtain ⟨b, hb, hg, hu⟩ := h1
  have hc1 : (sameGuestSameUnit c store).length > 0 := by
    rw [sameGuestSameUnit, filter_length_pos_iff]
    exact ⟨b, hb, by simp [hg, hu]⟩
  simp [createBooking, isBookingPossible, hc1]

/-- Witness for C2: a guest with an existing booking on unit 1 submits a second
request for unit 1; both check 1 and check 2 would fire, and the outcome is
`GUEST_UNIT_DUPLICATE`. -/
theorem createBooking_guestUnitDuplicate_first_witness :
    createBooking 2 ⟨"GuestA", "1", 3, 2⟩ [⟨1, "GuestA", "1", 0, 5⟩] =
      (.rejected .GUEST_UNIT_DUPLICATE, [⟨1, "GuestA", "1", 0, 5⟩]) :=
  createBooking_guestUnitDuplicate_first 2 ⟨"GuestA", "1", 3, 2⟩ _
    ⟨⟨1, "GuestA", "1", 0, 5⟩, by simp, rfl, rfl⟩
    ⟨⟨1, "GuestA", "1", 0, 5⟩, by simp, rfl⟩

/-- Counterexample to C5: `GUEST_UNIT_DUPLICATE` is reachable. A guest holding
a booking on unit 1 who re-books unit 1 gets reason `GUEST_UNIT_DUPLICATE`
(check 1 runs before check 2), refuting the claim that this reason is never
returned. -/
theorem guestUnitDuplicate_reachable_cex :
    (createBooking 2 ⟨"GuestA", "1", 0, 5⟩ [⟨1, "GuestA", "1", 0, 5⟩]).fst =
      .rejected .GUEST_UNIT_DUPLICATE := by
  norm_num [createBooking, isBookingPossible, sameGuestSameUnit]

/-- C5, amended: check 1 is live, not dead code — `createBooking` returns
reason `GUEST_UNIT_DUPLICATE` exactly when some existing booking has the
candidate guest name and the candidate unit; check 2 never preempts it
because check 1 is evaluated first. -/
theorem createBooking_guestUnitDuplicate_iff (newId : Nat) (c : BookingRequest)
    (store : List Booking) :
    (createBooking newId c store).fst = .rejected .GUEST_UNIT_DUPLICATE ↔
      ∃ b ∈ store, b.guestName = c.guestName ∧ b.unitID = c.unitID := by
  constructor
  · intro h
    by_cases hc1 : (sameGuestSameUnit c store).length > 0
    · rw [sameGuestSameUnit, filter_length_pos_iff] at hc1
      obtain ⟨b, hb, hpb⟩ := hc1
      simp only [Bool.and_eq_true, beq_iff_eq] at hpb
      exact ⟨b, hb, hpb⟩
    · exfalso
      simp only [createBooking, isBookingPossible, hc1, if_false] at h
      split at h <;> simp_all <;> split at h <;> simp_all <;> split at h <;> simp_all
  · rintro ⟨b, hb, hg, hu⟩
    have hc1 : (sameGuestSameUnit c store).length > 0 := by
      rw [sameGuestSameUnit, filter_length_pos_iff]
      exact ⟨b, hb, by simp [hg, hu]⟩
    simp [createBooking, isBookingPossible, hc1]

/-- C4. Back-to-back bookings are legal: if the candidate guest holds no
existing booking and every existing booking on the candidate unit either ends
exactly at the candidate check-in or starts exactly at the candidate checkout
(night counts positive per the data model), the booking is accepted and
appended to the store. -/
theorem backToBack_accepted (newId : Nat) (c : BookingRequest) (store : List Booking)
    (hguest : ∀ b ∈ store, b.guestName ≠ c.guestName)
    (hcn : 1 ≤ c.numberOfNights)
    (hbn : ∀ b ∈ store, 1 ≤ b.numberOfNights)
    (htouch : ∀ b ∈ store, b.unitID = c.unitID →
      checkOutDate b = c.checkInDate ∨ b.checkInDate = c.checkInDate + c.numberOfNights) :
    createBooking newId c store =
      (.created ⟨newId, c.guestName, c.unitID, c.checkInDate, c.numberOfNights⟩,
        store ++ [⟨newId, c.guestName, c.unitID, c.checkInDate, c.numberOfNights⟩]) := by
  have h1 : ¬ (sameGuestSameUnit c store).length > 0 := by
    rw [sameGuestSameUnit, filter_length_pos_iff]
    rintro ⟨b, hb, hpb⟩
    simp only [Bool.and_eq_true, beq_iff_eq] at hpb
    exact hguest b hb hpb.1
  have h2 : ¬ (sameGuestAlreadyBooked c store).length > 0 := by
    rw [sameGuestAlreadyBooked, filter_length_pos_iff]
    rintro ⟨b, hb, hpb⟩
    simp only [beq_iff_eq] at hpb
    exact hguest b hb hpb
  have h3 : ¬ (sameUnitSameCheckIn c store).length > 0 := by
    rw [sameUnitSameCheckIn, filter_length_pos_iff]
    rintro ⟨b, hb, hpb⟩
    simp only [Bool.and_eq_true, beq_iff_eq, decide_eq_true_eq] at hpb
    have hb1 := hbn b hb
    rcases htouch b hb hpb.2 with hout | hstart
    · rw [checkOutDate, hpb.1] at hout
      linarith
    · rw [hpb.1] at hstart
      linarith
  have h4 : (unitCandidates c store).any (fun b =>
      decide (c.checkInDate < checkOutDate b) &&
        decide (b.checkInDate < c.checkInDate + c.numberOfNights)) = false := by
    rw [List.any_eq_false]
    intro b hb
    rw [unitCandidates, List.mem_filter] at hb
    obtain ⟨hbs, hcond⟩ := hb
    simp only [Bool.and_eq_true, beq_iff_eq, decide_eq_true_eq] at hcond
    simp only [Bool.and_eq_true, decide_eq_true_eq, not_and]
    intro hlt
    rcases htouch b hbs hcond.1 with hout | hstart
    · rw [hout] at hlt
      exact absurd hlt (lt_irrefl _)
    · rw [hstart] at hcond
      exact absurd hcond.2 (lt_irrefl _)
  simp [createBooking, isBookingPossible, h1, h2, h3, h4]

/-- Witness for C4: unit 1 is booked for days 0 to 5 and a new guest books
days 5 to 8 on the same unit; the touching intervals do not overlap and the
booking is accepted. -/
theorem backToBack_accepted_witness :
    createBooking 2 ⟨"GuestB", "1", 5, 3⟩ [⟨1, "GuestA", "1", 0, 5⟩] =
      (.created ⟨2, "GuestB", "1", 5, 3⟩,
        [⟨1, "GuestA", "1", 0, 5⟩, ⟨2, "GuestB", "1", 5, 3⟩]) :=
  backToBack_accepted 2 ⟨"GuestB", "1", 5, 3⟩ _
    (by intro b hb; simp at hb; subst hb; simp)
    (by norm_num)
    (by intro b hb; simp at hb; subst hb; norm_num)
    (by intro b hb _; simp at hb; subst hb; left; norm_num [checkOutDate])

/-- C6. Check 3 is redundant given check 4: on stores whose bookings all have
at least one night, and for candidates with at least one night, removing the
exact check-in collision check changes neither the outcome nor the reason —
any exact collision is also a general interval overlap, and both report
`UNIT_OCCUPIED`. -/
theorem check3_redundant (c : BookingRequest) (store : List Booking)
    (hcn : 1 ≤ c.numberOfNights)
    (hbn : ∀ b ∈ store, 1 ≤ b.numberOfNights) :
    isBookingPossible c store = isBookingPossibleNoCheck3 c store := by
  by_cases h3 : (sameUnitSameCheckIn c store).length > 0
  · rw [sameUnitSameCheckIn, filter_length_pos_iff] at h3
    obtain ⟨b, hb, hpb⟩ := h3
    simp only [Bool.and_eq_true, beq_iff_eq, decide_eq_true_eq] at hpb
    have hbpos := hbn b hb
    have h4 : (unitCandidates c store).any (fun b =>
        decide (c.checkInDate < checkOutDate b) &&
          decide (b.checkInDate < c.checkInDate + c.numberOfNights)) = true := by
      rw [List.any_eq_true]
      refine ⟨b, ?_, ?_⟩
      · rw [unitCandidates, List.mem_filter]
        refine ⟨hb, ?_⟩
        simp only [Bool.and_eq_true, beq_iff_eq, decide_eq_true_eq]
        exact ⟨hpb.2, by rw [hpb.1]; linarith⟩
      · simp only [Bool.and_eq_true, decide_eq_true_eq]
        constructor
        · rw [checkOutDate, hpb.1]; linarith
        · rw [hpb.1]; linarith
    have h3l : (sameUnitSameCheckIn c store).length > 0 := by
      rw [sameUnitSameCheckIn, filter_length_pos_iff]
      exact ⟨b, hb, by simp [hpb.1, hpb.2]⟩
    simp only [isBookingPossible, isBookingPossibleNoCheck3, h3l, h4, if_true]
  · simp only [isBookingPossible, isBookingPossibleNoCheck3, h3, if_false]

/-- Witness for C6: with unit 1 already booked from day 0 for 5 nights and a
candidate for the same unit and date, the full check sequence and the
three-check variant agree (both reject with `UNIT_OCCUPIED`). -/
theorem check3_redundant_witness :
    isBookingPossible ⟨"GuestB", "1", 0, 5⟩ [⟨1, "GuestA", "1", 0, 5⟩] =
      isBookingPossibleNoCheck3 ⟨"GuestB", "1", 0, 5⟩ [⟨1, "GuestA", "1", 0, 5⟩] :=
  check3_redundant ⟨"GuestB", "1", 0, 5⟩ _
    (by norm_num)
    (by intro b hb; simp at hb; subst hb; norm_num)

/-- When `extraNights` passes validation, the extend path never reports
`invalidExtraNights`. -/
theorem extendBooking_valid_ne_invalid (bookingId : Nat) (q : ℚ) (store : List Booking)
    (hq : ¬ (q = 0 ∨ q ≤ 0)) :
    (extendBooking bookingId (.num q) store).fst ≠ .invalidExtraNights := by
  simp only [extendBooking, hq, if_false]
  cases hfind : store.find? (fun b => b.id == bookingId) with
  | none => simp
  | some bk =>
    dsimp only
    split <;> simp

/-- C3. Extension conflict decision: with a positive `extraNights` and an
existing booking `bk`, the extension is rejected with `extensionConflict`
exactly when some other booking on the same unit (different id) has its
check-in strictly before the proposed checkout and satisfies
`currentCheckout < otherCheckout` and `otherCheckIn < proposedCheckout`,
where `currentCheckout = checkIn + numberOfNights` and
`proposedCheckout = currentCheckout + extraNights`. -/
theorem extensionConflict_iff (bookingId : Nat) (extra : ℚ) (store : List Booking)
    (bk : Booking)
    (hpos : 0 < extra)
    (hfind : store.find? (fun b => b.id == bookingId) = some bk) :
    (extendBooking bookingId (.num extra) store).fst = .extensionConflict ↔
      ∃ other ∈ store, other.unitID = bk.unitID ∧ other.id ≠ bk.id ∧
        other.checkInDate < bk.checkInDate + bk.numberOfNights + extra ∧
        bk.checkInDate + bk.numberOfNights < checkOutDate other ∧
        other.checkInDate < bk.checkInDate + bk.numberOfNights + extra := by
  have hval : ¬ (extra = 0 ∨ extra ≤ 0) := by
    rintro (h | h) <;> linarith
  have hbool : ((store.filter fun b =>
      b.unitID == bk.unitID && b.id != bk.id &&
        decide (b.checkInDate < bk.checkInDate + bk.numberOfNights + extra)).any
      (fun other =>
        decide (bk.checkInDate + bk.numberOfNights < checkOutDate other) &&
          decide (other.checkInDate < bk.checkInDate + bk.numberOfNights + extra)) = true) ↔
      (∃ other ∈ store, other.unitID = bk.unitID ∧ other.id ≠ bk.id ∧
        other.checkInDate < bk.checkInDate + bk.numberOfNights + extra ∧
        bk.checkInDate + bk.numberOfNights < checkOutDate other ∧
        other.checkInDate < bk.checkInDate + bk.numberOfNights + extra) := by
    rw [List.any_eq_true]
    constructor
    · rintro ⟨other, hmem, hother⟩
      rw [List.mem_filter] at hmem
      simp only [Bool.and_eq_true, beq_iff_eq, bne_iff_ne, decide_eq_true_eq] at hmem hother
      exact ⟨other, hmem.1, hmem.2.1.1, hmem.2.1.2, hmem.2.2, hother.1, hother.2⟩
    · rintro ⟨other, hmem, h1, h2, h3, h4, h5⟩
      refine ⟨other, ?_, ?_⟩
      · rw [List.mem_filter]
        exact ⟨hmem, by simp [h1, h2, h3]⟩
      · simp [h4, h5]
  rw [← hbool]
  simp only [extendBooking, hval, if_false, hfind]
  split
  · rename_i hC
    simp [hC]
  · rename_i hC
    simp [hC]

/-- Witness for C3: GuestA holds unit 1 for 5 nights from day 0, GuestC holds
unit 1 from day 5 for 2 nights; extending GuestA by one night is rejected
with `extensionConflict`. -/
theorem extensionConflict_iff_witness :
    (extendBooking 1 (.num 1)
      [⟨1, "GuestA", "1", 0, 5⟩, ⟨2, "GuestC", "1", 5, 2⟩]).fst = .extensionConflict :=
  (extensionConflict_iff 1 1 [⟨1, "GuestA", "1", 0, 5⟩, ⟨2, "GuestC", "1", 5, 2⟩]
      ⟨1, "GuestA", "1", 0, 5⟩ (by norm_num) rfl).mpr
    ⟨⟨2, "GuestC", "1", 5, 2⟩, by simp, rfl, by decide, by norm_num,
      by norm_num [checkOutDate], by norm_num⟩

/-- C8. `extraNights` validation: the extend path reports
`invalidExtraNights` exactly when the input is non-numeric (`NaN`), zero or
negative; on that path the store is unchanged and the decision is
independent of the store contents (no persistence read is consulted). -/
theorem invalidExtraNights_iff (bookingId : Nat) (extra : JSNum) (store : List Booking) :
    ((extendBooking bookingId extra store).fst = .invalidExtraNights ↔
      extra = .nan ∨ ∃ q, extra = .num q ∧ q ≤ 0) ∧
    ((extendBooking bookingId extra store).fst = .invalidExtraNights →
      (extendBooking bookingId extra store).snd = store ∧
      ∀ store2 : List Booking, (extendBooking bookingId extra store2).fst =
        .invalidExtraNights) := by
  cases extra with
  | nan => simp [extendBooking]
  | num q =>
    by_cases hq : q = 0 ∨ q ≤ 0
    · have hle : q ≤ 0 := by
        rcases hq with h | h
        · exact le_of_eq h
        · exact h
      constructor
      · constructor
        · intro _
          exact Or.inr ⟨q, rfl, hle⟩
        · intro _
          simp [extendBooking, hq]
      · intro _
        exact ⟨by simp [extendBooking, hq], fun store2 => by simp [extendBooking, hq]⟩
    · have hne := extendBooking_valid_ne_invalid bookingId q store hq
      constructor
      · constructor
        · intro h
          exact absurd h hne
        · rintro (h | ⟨q2, hq2, hle⟩)
          · simp at h
          · injection hq2 with hqq
            subst hqq
            exact absurd (Or.inr hle) hq
      · intro h
        exact absurd h hne

/-- Witness for C8: a zero `extraNights` request is rejected as invalid and
the store is left untouched. -/
theorem invalidExtraNights_iff_witness :
    (extendBooking 1 (JSNum.num 0) [⟨1, "GuestA", "1", 0, 5⟩]).fst =
      .invalidExtraNights ∧
    (extendBooking 1 (JSNum.num 0) [⟨1, "GuestA", "1", 0, 5⟩]).snd =
      [⟨1, "GuestA", "1", 0, 5⟩] :=
  let h := invalidExtraNights_iff 1 (JSNum.num 0) [⟨1, "GuestA", "1", 0, 5⟩]
  let hf := h.1.mpr (Or.inr ⟨0, rfl, le_refl 0⟩)
  ⟨hf, (h.2 hf).1⟩

/-- Counterexample to C7: `createBooking` performs no validation of
`numberOfNights`. A candidate with zero nights on an empty store is accepted
and stored with a non-positive night count. -/
theorem nights_unvalidated_cex :
    (createBooking 1 ⟨"GuestA", "1", 0, 0⟩ []).fst = .created ⟨1, "GuestA", "1", 0, 0⟩ ∧
    (createBooking 1 ⟨"GuestA", "1", 0, 0⟩ []).snd = [⟨1, "GuestA", "1", 0, 0⟩] ∧
    (Booking.mk 1 "GuestA" "1" 0 0).numberOfNights ≤ 0 :=
  ⟨rfl, rfl, le_refl 0⟩

/-- C7, amended: creation stores the candidate night count as given, without
validating positivity; an accepted extension strictly increases the night
count, since `extraNights` is validated to be positive. -/
theorem nights_policy :
    (∀ (newId : Nat) (c : BookingRequest) (store : List Booking) (b : Booking),
      (createBooking newId c store).fst = .created b →
        b.numberOfNights = c.numberOfNights) ∧
    (∀ (bookingId : Nat) (q : ℚ) (store : List Booking) (bk b2 : Booking),
      store.find? (fun x => x.id == bookingId) = some bk →
      (extendBooking bookingId (.num q) store).fst = .updated b2 →
      0 < q ∧ b2.numberOfNights = bk.numberOfNights + q ∧
        bk.numberOfNights < b2.numberOfNights) := by
  constructor
  · intro newId c store b h
    simp only [createBooking] at h
    split at h
    · simp only [CreateResult.created.injEq] at h
      rw [← h]
    · simp at h
  · intro bookingId q store bk b2 hfind hup
    by_cases hq : q = 0 ∨ q ≤ 0
    · simp [extendBooking, hq] at hup
    · have hqpos : 0 < q := by
        push_neg at hq
        exact hq.2
      simp only [extendBooking, hq, if_false, hfind] at hup
      split at hup
      · simp at hup
      · simp only [ExtendResult.updated.injEq] at hup
        subst hup
        refine ⟨hqpos, rfl, ?_⟩
        simp only [gt_iff_lt]
        linarith

/-- Witness for C7 (amended): extending a 5-night booking by 2 nights yields
7 nights, strictly more than before. -/
theorem nights_policy_witness :
    (0:ℚ) < 2 ∧
    (Booking.mk 1 "GuestA" "1" 0 7).numberOfNights =
      (Booking.mk 1 "GuestA" "1" 0 5).numberOfNights + 2 ∧
    (Booking.mk 1 "GuestA" "1" 0 5).numberOfNights <
      (Booking.mk 1 "GuestA" "1" 0 7).numberOfNights :=
  nights_policy.2 1 2 [⟨1, "GuestA", "1", 0, 5⟩] ⟨1, "GuestA", "1", 0, 5⟩
    ⟨1, "GuestA", "1", 0, 7⟩ rfl
    (by norm_num [extendBooking, checkOutDate])

/-- C9. Frame effect of an accepted extension: the updated record keeps the
id, guest name, unit and check-in date of the located booking and gains
exactly `extraNights` nights; the resulting store has the same length, rows
with a different id are unchanged, and the row with the target id has only
its night count replaced. -/
theorem extension_frame (bookingId : Nat) (q : ℚ) (store : List Booking)
    (bk b2 : Booking) (s2 : List Booking)
    (hids : (store.map Booking.id).Nodup)
    (hfind : store.find? (fun b => b.id == bookingId) = some bk)
    (hrun : extendBooking bookingId (.num q) store = (.updated b2, s2)) :
    b2.id = bk.id ∧ b2.guestName = bk.guestName ∧ b2.unitID = bk.unitID ∧
    b2.checkInDate = bk.checkInDate ∧ b2.numberOfNights = bk.numberOfNights + q ∧
    s2.length = store.length ∧
    ∀ (i : Nat) (h : i < store.length) (h2 : i < s2.length),
      ((store.get ⟨i, h⟩).id ≠ bk.id → s2.get ⟨i, h2⟩ = store.get ⟨i, h⟩) ∧
      ((store.get ⟨i, h⟩).id = bk.id →
        s2.get ⟨i, h2⟩ =
          { store.get ⟨i, h⟩ with numberOfNights := bk.numberOfNights + q }) := by
  by_cases hq : q = 0 ∨ q ≤ 0
  · simp [extendBooking, hq, Prod.ext_iff] at hrun
  · simp only [extendBooking, hq, if_false, hfind] at hrun
    split at hrun
    · simp [Prod.ext_iff] at hrun
    · rw [Prod.mk.injEq] at hrun
      obtain ⟨hb2, hs2⟩ := hrun
      simp only [ExtendResult.updated.injEq] at hb2
      subst hb2
      subst hs2
      refine ⟨rfl, rfl, rfl, rfl, rfl, List.length_map _ _, ?_⟩
      intro i h h2
      have hget : ∀ (h2 : i < (store.map fun x =>
          if x.id == bk.id then { x with numberOfNights := bk.numberOfNights + q }
          else x).length),
          (store.map fun x =>
            if x.id == bk.id then { x with numberOfNights := bk.numberOfNights + q }
            else x).get ⟨i, h2⟩ =
          if (store.get ⟨i, h⟩).id == bk.id then
            { store.get ⟨i, h⟩ with numberOfNights := bk.numberOfNights + q }
          else store.get ⟨i, h⟩ := by
        intro h2
        simp [List.get_eq_getElem, List.getElem_map]
      constructor
      · intro hne
        rw [hget h2]
        exact if_neg (by simpa using hne)
      · intro heq
        rw [hget h2]
        exact if_pos (by simpa using heq)

/-- Witness for C9: extending booking 1 by two nights keeps its unit and adds
exactly two nights. -/
theorem extension_frame_witness :
    (Booking.mk 1 "GuestA" "1" 0 7).unitID = (Booking.mk 1 "GuestA" "1" 0 5).unitID ∧
    (Booking.mk 1 "GuestA" "1" 0 7).numberOfNights =
      (Booking.mk 1 "GuestA" "1" 0 5).numberOfNights + 2 :=
  let h := extension_frame 1 2 [⟨1, "GuestA", "1", 0, 5⟩, ⟨2, "GuestB", "2", 10, 3⟩]
    ⟨1, "GuestA", "1", 0, 5⟩ ⟨1, "GuestA", "1", 0, 7⟩
    [⟨1, "GuestA", "1", 0, 7⟩, ⟨2, "GuestB", "2", 10, 3⟩]
    (by decide) rfl
    (by norm_num [extendBooking, checkOutDate, Prod.ext_iff])
  ⟨h.2.2.1, h.2.2.2.2.1⟩

/-- C10. A positive non-integer `extraNights` (here 3/2) passes validation —
the check only requires a numeric value greater than zero — and, with no
other bookings, the extension is accepted and the stored night count
becomes 5 + 3/2, which is not an integer. -/
theorem fractional_extraNights_accepted :
    (extendBooking 1 (.num (3/2)) [⟨1, "GuestA", "1", 0, 5⟩]).fst =
      .updated ⟨1, "GuestA", "1", 0, 5 + 3/2⟩ ∧
    (extendBooking 1 (.num (3/2)) [⟨1, "GuestA", "1", 0, 5⟩]).snd =
      [⟨1, "GuestA", "1", 0, 5 + 3/2⟩] ∧
    (0:ℚ) < 3/2 ∧
    ¬ ∃ n : ℤ, (5 + 3/2 : ℚ) = (n : ℚ) := by
  refine ⟨?_, ?_, by norm_num, ?_⟩
  · norm_num [extendBooking, checkOutDate]
  · norm_num [extendBooking, checkOutDate]
  · rintro ⟨n, hn⟩
    have h13 : (13 : ℚ) = 2 * (n : ℚ) := by linarith
    have h13z : (13 : ℤ) = 2 * n := by exact_mod_cast h13
    omega

/-- Overlap as a pair of strict inequalities on check-in dates and checkouts. -/
theorem overlaps_eq_true_iff (a b : Booking) :
    overlaps a b = true ↔
      (a.checkInDate < b.checkInDate + b.numberOfNights ∧
       b.checkInDate < a.checkInDate + a.numberOfNights) := by
  simp [overlaps, checkOutDate]

/-- `isBookingPossible` accepts exactly when all four checks pass. -/
theorem isBookingPossible_result_iff (c : BookingRequest) (store : List Booking) :
    (isBookingPossible c store).result = true ↔
      (¬ (sameGuestSameUnit c store).length > 0 ∧
       ¬ (sameGuestAlreadyBooked c store).length > 0 ∧
       ¬ (sameUnitSameCheckIn c store).length > 0 ∧
       (unitCandidates c store).any (fun b =>
         decide (c.checkInDate < checkOutDate b) &&
           decide (b.checkInDate < c.checkInDate + c.numberOfNights)) = false) := by
  simp only [isBookingPossible]
  split_ifs with h1 h2 h3 h4 <;> simp_all

/-- C1. Non-overlap invariant preservation: starting from a store whose
same-unit bookings never overlap (with positive night counts and unique row
ids, per the data model), both engine operations — any create attempt and
any extension attempt — leave a store whose same-unit bookings still never
overlap. Rejected operations leave the store untouched; accepted ones are
guarded by check 4 (creation) and the extension-window scan (extension). -/
theorem nonOverlap_invariant_preserved (store : List Booking)
    (hinv : noOverlaps store)
    (hpos : ∀ b ∈ store, 0 < b.numberOfNights)
    (hids : (store.map Booking.id).Nodup) :
    (∀ (newId : Nat) (c : BookingRequest),
      noOverlaps (createBooking newId c store).snd) ∧
    (∀ (bookingId : Nat) (extra : JSNum),
      noOverlaps (extendBooking bookingId extra store).snd) := by
  constructor
  · intro newId c
    by_cases hres : (isBookingPossible c store).result = true
    · have hsnd : (createBooking newId c store).snd =
          store ++ [⟨newId, c.guestName, c.unitID, c.checkInDate, c.numberOfNights⟩] := by
        simp [createBooking, hres]
      obtain ⟨-, -, -, h4⟩ := (isBookingPossible_result_iff c store).mp hres
      rw [List.any_eq_false] at h4
      rw [hsnd]
      unfold noOverlaps
      rw [List.pairwise_append]
      refine ⟨hinv, by simp, ?_⟩
      intro a ha b hb
      simp only [List.mem_singleton] at hb
      subst hb
      intro hunit
      have hunit2 : a.unitID = c.unitID := hunit
      rw [Bool.eq_false_iff]
      intro hcontra
      rw [overlaps_eq_true_iff] at hcontra
      have h1 : a.checkInDate < c.checkInDate + c.numberOfNights := hcontra.1
      have h2 : c.checkInDate < a.checkInDate + a.numberOfNights := hcontra.2
      have hmem : a ∈ unitCandidates c store := by
        rw [unitCandidates, List.mem_filter]
        exact ⟨ha, by simp [hunit2, h1]⟩
      have hna := h4 a hmem
      simp only [Bool.and_eq_true, decide_eq_true_eq, not_and, checkOutDate] at hna
      exact hna h2 h1
    · have hsnd : (createBooking newId c store).snd = store := by
        simp [createBooking, hres]
      rw [hsnd]
      exact hinv
  · intro bookingId extra
    cases extra with
    | nan => simpa [extendBooking] using hinv
    | num q =>
      by_cases hq : q = 0 ∨ q ≤ 0
      · simpa [extendBooking, hq] using hinv
      · cases hfind : store.find? (fun b => b.id == bookingId) with
        | none => simpa [extendBooking, hq, hfind] using hinv
        | some bk =>
          have hbkmem : bk ∈ store := List.mem_of_find?_eq_some hfind
          by_cases hscan : (store.filter fun b =>
              b.unitID == bk.unitID && b.id != bk.id &&
                decide (b.checkInDate < bk.checkInDate + bk.numberOfNights + q)).any
              (fun other =>
                decide (bk.checkInDate + bk.numberOfNights < checkOutDate other) &&
                  decide (other.checkInDate < bk.checkInDate + bk.numberOfNights + q)) = true
          · simpa [extendBooking, hq, hfind, hscan] using hinv
          · have hsnd : (extendBooking bookingId (.num q) store).snd =
                store.map (fun x => if x.id == bk.id then
                  { x with numberOfNights := bk.numberOfNights + q } else x) := by
              simp only [extendBooking, hq, if_false, hfind]
              rw [if_neg hscan]
            rw [hsnd]
            unfold noOverlaps
            rw [List.pairwise_map]
            have hidp : store.Pairwise (fun a b => a.id ≠ b.id) :=
              List.pairwise_map.mp hids
            rw [List.any_eq_true] at hscan
            push_neg at hscan
            refine List.Pairwise.imp_of_mem ?_ (hinv.and hidp)
            intro a b ha hb hab
            obtain ⟨hov, hne⟩ := hab
            intro huab
            have hfunit : ∀ x : Booking,
                (if x.id == bk.id then
                  { x with numberOfNights := bk.numberOfNights + q } else x).unitID =
                  x.unitID := by
              intro x
              split <;> rfl
            rw [hfunit a, hfunit b] at huab
            have hovp : ¬ (a.checkInDate < b.checkInDate + b.numberOfNights ∧
                b.checkInDate < a.checkInDate + a.numberOfNights) := by
              have h := hov huab
              rw [Bool.eq_false_iff, Ne, overlaps_eq_true_iff] at h
              exact h
            by_cases hA : a.id = bk.id
            · have haeq : a = bk := List.inj_on_of_nodup_map hids ha hbkmem hA
              subst haeq
              have hbne : b.id ≠ a.id := fun h => hne h.symm
              rw [if_pos (by simp), if_neg (by simp [hbne])]
              rw [Bool.eq_false_iff]
              intro hcontra
              rw [overlaps_eq_true_iff] at hcontra
              have h1 : a.checkInDate < b.checkInDate + b.numberOfNights := hcontra.1
              have h2 : b.checkInDate < a.checkInDate + (a.numberOfNights + q) := hcontra.2
              have hbfilter : b ∈ store.filter (fun x =>
                  x.unitID == a.unitID && x.id != a.id &&
                    decide (x.checkInDate < a.checkInDate + a.numberOfNights + q)) := by
                rw [List.mem_filter]
                refine ⟨hb, ?_⟩
                simp only [Bool.and_eq_true, beq_iff_eq, bne_iff_ne, decide_eq_true_eq]
                exact ⟨⟨huab.symm, hbne⟩, by linarith⟩
              have hgb := hscan b hbfilter
              simp only [ne_eq, Bool.and_eq_true, decide_eq_true_eq, not_and, checkOutDate] at hgb
              have hbpos := hpos b hb
              by_cases hco : a.checkInDate + a.numberOfNights <
                  b.checkInDate + b.numberOfNights
              · exact (hgb hco) (by linarith)
              · have h3 : ¬ (b.checkInDate < a.checkInDate + a.numberOfNights) :=
                  fun h => hovp ⟨h1, h⟩
                push_neg at hco h3
                linarith
            · by_cases hB : b.id = bk.id
              · have hbeq : b = bk := List.inj_on_of_nodup_map hids hb hbkmem hB
                subst hbeq
                rw [if_neg (by simp [hA]), if_pos (by simp)]
                rw [Bool.eq_false_iff]
                intro hcontra
                rw [overlaps_eq_true_iff] at hcontra
                have h1 : a.checkInDate < b.checkInDate + (b.numberOfNights + q) := hcontra.1
                have h2 : b.checkInDate < a.checkInDate + a.numberOfNights := hcontra.2
                have hafilter : a ∈ store.filter (fun x =>
                    x.unitID == b.unitID && x.id != b.id &&
                      decide (x.checkInDate < b.checkInDate + b.numberOfNights + q)) := by
                  rw [List.mem_filter]
                  refine ⟨ha, ?_⟩
                  simp only [Bool.and_eq_true, beq_iff_eq, bne_iff_ne, decide_eq_true_eq]
                  exact ⟨⟨huab, hA⟩, by linarith⟩
                have hga := hscan a hafilter
                simp only [ne_eq, Bool.and_eq_true, decide_eq_true_eq, not_and, checkOutDate] at hga
                have hapos := hpos a ha
                by_cases hco : b.checkInDate + b.numberOfNights <
                    a.checkInDate + a.numberOfNights
                · exact (hga hco) (by linarith)
                · have h3 : ¬ (a.checkInDate < b.checkInDate + b.numberOfNights) :=
                    fun h => hovp ⟨h, h2⟩
                  push_neg at hco h3
                  linarith
              · rw [if_neg (by simp [hA]), if_neg (by simp [hB])]
                exact hov huab

/-- Witness for C1: a conflict-free two-unit store stays conflict-free after
a back-to-back creation on unit 1. -/
theorem nonOverlap_invariant_preserved_witness :
    noOverlaps (createBooking 3 ⟨"GuestC", "1", 5, 2⟩
      [⟨1, "GuestA", "1", 0, 5⟩, ⟨2, "GuestB", "2", 0, 3⟩]).snd :=
  (nonOverlap_invariant_preserved [⟨1, "GuestA", "1", 0, 5⟩, ⟨2, "GuestB", "2", 0, 3⟩]
    (by simp [noOverlaps])
    (by intro b hb; simp at hb; rcases hb with rfl | rfl <;> norm_num)
    (by simp)).1 3 ⟨"GuestC", "1", 5, 2⟩

end BookingCore
